import Mathlib

/-!
Shallow embedding of the `simple_logger` crate (src/lib.rs): an in-memory
log buffer that accumulates timestamped, leveled entries and performs a
filtered, idempotent flush to a file.

Modelling conventions:
* `Local::now()` is passed in explicitly as a `Timestamp` argument.
* The process environment is passed in as `env : Option String`, the value of
  `LOG_LEVEL` (`none` = unset).  `env::var(..).unwrap()` panicking on an
  unset variable is modelled by `get_log_level` returning `none`.
* The file system is modelled only at the one resolved target path, as a
  `FileState` (presence flag plus current content).  Fallible I/O operations
  are driven by an `IoOracle` that says which operation fails and with what
  error; `noErr` is the all-success oracle.
* `flush` additionally returns a trace of the externally visible operations
  it performed (environment read, open, create-dirs, create, line writes),
  used to state the "no I/O" / "reads the variable exactly once" /
  "creates the file iff absent" claims.
* Writing through a handle obtained from `File::open` (a read-only open, per
  std::fs semantics) fails at the OS level; this is modelled by `writeLoop`
  failing with error `"EBADF"` whenever the handle mode is `readOnly`.
-/

/-- Severity levels, from `enum LogLevel` in src/lib.rs. -/
inductive LogLevel where
  | Default
  | Error
  | Debug
  | Info
deriving DecidableEq, Repr

/-- Wall-clock timestamp in the local timezone, the fields chrono's
`%Y-%m-%d %H-%M-%S` format specifier prints. -/
structure Timestamp where
  year : Nat
  month : Nat
  day : Nat
  hour : Nat
  minute : Nat
  second : Nat
deriving DecidableEq, Repr

/-- One buffered record, from `struct LogEntry` (the `timestap` field name is
the source's own spelling). -/
structure LogEntry where
  timestap : Timestamp
  level : LogLevel
  message : String
deriving DecidableEq, Repr

/-- File-system path, modelled as its components (`PathBuf`). -/
structure FsPath where
  components : List String
deriving DecidableEq, Repr

/-- Rust `Path::parent`: drop the last component; `None` for an empty path. -/
def FsPath.parent (p : FsPath) : Option FsPath :=
  match p.components with
  | [] => none
  | cs => some ⟨cs.dropLast⟩

/-- Compile-time platform, for the `cfg!(target_os = ..)` chain. -/
inductive TargetOs where
  | windows
  | macos
  | linux
deriving DecidableEq, Repr

/-- Platform default log location, from `default_log_path` in src/lib.rs
(the `PorgramData` spelling is the source's own). -/
def default_log_path (os : TargetOs) : FsPath :=
  match os with
  | .windows => ⟨["C:\\PorgramData", "Logs"]⟩
  | .macos => ⟨["/Library", "Logs"]⟩
  | .linux => ⟨["/var", "log"]⟩

/-- Embedding of `get_log_level` in src/lib.rs:
`env::var("LOG_LEVEL").unwrap()` followed by a string match.  The argument is
the value of `LOG_LEVEL` (`none` = unset).  When the variable is unset,
`env::var` returns `Err(VarError::NotPresent)` and `.unwrap()` panics; that
panic is modelled as `none`. -/
def get_log_level (env : Option String) : Option LogLevel :=
  match env with
  | none => none
  | some value =>
      some (match value with
        | "debug" => LogLevel.Debug
        | "info" => LogLevel.Info
        | _ => LogLevel.Default)

/-- The buffer, from `struct Logger`: entry list, optional target path and the
flush-once flag (the `Arc<AtomicBool>` is modelled as a plain `Bool`; all
claims here are single-threaded). -/
structure Logger where
  entries : List LogEntry
  file_path : Option FsPath
  flushed : Bool
deriving DecidableEq, Repr

/-- Embedding of `Logger::new`. -/
def Logger.new (file_path : FsPath) : Logger :=
  { entries := [], file_path := some file_path, flushed := false }

/-- Embedding of `Logger::debug`; `now` is the result of `Local::now()`. -/
def Logger.debug (l : Logger) (message : String) (now : Timestamp) : Logger :=
  { l with entries :=
      l.entries ++ [{ timestap := now, level := LogLevel.Debug, message := message }] }

/-- Embedding of `Logger::info`; `now` is the result of `Local::now()`. -/
def Logger.info (l : Logger) (message : String) (now : Timestamp) : Logger :=
  { l with entries :=
      l.entries ++ [{ timestap := now, level := LogLevel.Info, message := message }] }

/-- Embedding of `Logger::error`; `now` is the result of `Local::now()`. -/
def Logger.error (l : Logger) (message : String) (now : Timestamp) : Logger :=
  { l with entries :=
      l.entries ++ [{ timestap := now, level := LogLevel.Error, message := message }] }

/-- Two-digit zero-padded decimal, as chrono prints `%m %d %H %M %S`. -/
def pad2 (n : Nat) : String :=
  if n < 10 then "0" ++ toString n else toString n

/-- Four-digit zero-padded decimal, as chrono prints `%Y` for years 0–9999. -/
def pad4 (n : Nat) : String :=
  if n < 10 then "000" ++ toString n
  else if n < 100 then "00" ++ toString n
  else if n < 1000 then "0" ++ toString n
  else toString n

/-- Rendering of `timestap.format("%Y-%m-%d %H-%M-%S")`. -/
def formatTimestamp (t : Timestamp) : String :=
  pad4 t.year ++ "-" ++ pad2 t.month ++ "-" ++ pad2 t.day ++ " " ++
    pad2 t.hour ++ "-" ++ pad2 t.minute ++ "-" ++ pad2 t.second

/-- Rendering of `{:?}` on `LogLevel` (the derived `Debug` impl prints the
variant name). -/
def levelName : LogLevel → String
  | .Default => "Default"
  | .Error => "Error"
  | .Debug => "Debug"
  | .Info => "Info"

/-- The line `writeln!` formats for one entry: `[{}] {:?}: {}` applied to the
formatted timestamp, the level and the message (without the trailing newline
`writeln!` adds). -/
def formatLine (e : LogEntry) : String :=
  "[" ++ formatTimestamp e.timestap ++ "] " ++ levelName e.level ++ ": " ++ e.message

/-- Externally visible operations `flush` can perform, recorded in a trace. -/
inductive FsOp where
  | readEnv
  | openExisting (p : FsPath)
  | createDirAll (p : FsPath)
  | createFile (p : FsPath)
  | writeLine (s : String)
deriving DecidableEq, Repr

/-- State of the file at the resolved target path. -/
structure FileState where
  present : Bool
  content : String
deriving DecidableEq, Repr

/-- Access mode of the obtained handle: `File::open` yields a read-only
handle, `File::create` a writable one. -/
inductive FileMode where
  | readOnly
  | writeMode
deriving DecidableEq, Repr

/-- Error oracle deciding which fallible I/O operation fails and with what
error message; `writeErr i` governs the i-th attempted line write. -/
structure IoOracle where
  openErr : Option String
  createDirErr : Option String
  createFileErr : Option String
  writeErr : Nat → Option String

/-- The all-success oracle. -/
def noErr : IoOracle :=
  { openErr := none, createDirErr := none, createFileErr := none,
    writeErr := fun _ => none }

/-- Result of `flush`: `Ok(())`, `Err(e)` from an I/O operation, or a panic
out of `get_log_level`'s `.unwrap()`. -/
inductive FlushResult where
  | ok
  | ioError (e : String)
  | aborted
deriving DecidableEq, Repr

/-- Whether the `match log_level` arm in `Logger::flush` writes this entry:
the `Debug` and `Default` arms write every entry, the `Error` and `Info` arms
write only entries whose own level matches exactly and `continue` otherwise. -/
def includeEntry (filter : LogLevel) (e : LogEntry) : Bool :=
  match filter with
  | .Debug => true
  | .Error => match e.level with | .Error => true | _ => false
  | .Info => match e.level with | .Info => true | _ => false
  | .Default => true

/-- Outcome of the write phase: the error that stopped it (if any), the text
appended to the file so far, and the write operations attempted. -/
structure WriteOut where
  err : Option String
  written : String
  ops : List FsOp
deriving Repr

/-- The filter-and-write loop of `Logger::flush`: iterate the entries in
order, `writeln!` each included one, propagating the first write failure via
`?` (lines already written stay written).  A write through a read-only handle
fails at the OS level with `EBADF`. -/
def writeLoop (mode : FileMode) (oracle : IoOracle) (filter : LogLevel) :
    List LogEntry → Nat → WriteOut
  | [], _ => { err := none, written := "", ops := [] }
  | e :: rest, idx =>
      if includeEntry filter e then
        let line := formatLine e ++ "\n"
        match mode, oracle.writeErr idx with
        | .readOnly, _ => { err := some "EBADF", written := "", ops := [FsOp.writeLine line] }
        | .writeMode, some err => { err := some err, written := "", ops := [FsOp.writeLine line] }
        | .writeMode, none =>
            let out := writeLoop mode oracle filter rest (idx + 1)
            { err := out.err, written := line ++ out.written,
              ops := FsOp.writeLine line :: out.ops }
      else
        writeLoop mode oracle filter rest idx

/-- The open-or-create step of `Logger::flush`: if the path exists,
`File::open` it (read-only); otherwise `create_dir_all` the parent (when
there is one) and `File::create` the file.  Returns the handle mode, the
resulting file state and the operations performed, or the first error
together with the operations attempted. -/
def openOrCreate (path : FsPath) (fs : FileState) (oracle : IoOracle) :
    Except (String × List FsOp) (FileMode × FileState × List FsOp) :=
  if fs.present then
    match oracle.openErr with
    | some e => .error (e, [FsOp.openExisting path])
    | none => .ok (FileMode.readOnly, fs, [FsOp.openExisting path])
  else
    match path.parent with
    | some parent =>
        match oracle.createDirErr with
        | some e => .error (e, [FsOp.createDirAll parent])
        | none =>
            match oracle.createFileErr with
            | some e => .error (e, [FsOp.createDirAll parent, FsOp.createFile path])
            | none =>
                .ok (FileMode.writeMode, { present := true, content := "" },
                  [FsOp.createDirAll parent, FsOp.createFile path])
    | none =>
        match oracle.createFileErr with
        | some e => .error (e, [FsOp.createFile path])
        | none =>
            .ok (FileMode.writeMode, { present := true, content := "" },
              [FsOp.createFile path])

/-- FsPath resolution inside `Logger::flush`: the configured path if present,
otherwise the platform default. -/
def Logger.resolvePath (l : Logger) (os : TargetOs) : FsPath :=
  match l.file_path with
  | some path => path
  | none => default_log_path os

/-- Everything `Logger::flush` produces: the result value, the final value of
the flushed flag, the final state of the target file, and the trace of
operations performed. -/
structure FlushOut where
  result : FlushResult
  flushed : Bool
  fs : FileState
  trace : List FsOp
deriving Repr

/-- Embedding of `Logger::flush`:
1. if `flushed` is already set, return `Ok(())` at once (no operations);
2. resolve the filter via `get_log_level` (a panic of its `.unwrap()` when
   `LOG_LEVEL` is unset aborts the flush before any file access);
3. resolve the target path;
4. open the existing file read-only, or create parent directories and the
   file;
5. run the filter-and-write loop;
6. set the flag only when everything succeeded.
(The `println!` on the create path goes to stdout and is not modelled.) -/
def Logger.flush (l : Logger) (env : Option String) (os : TargetOs)
    (fs : FileState) (oracle : IoOracle) : FlushOut :=
  if l.flushed then
    { result := .ok, flushed := true, fs := fs, trace := [] }
  else
    match get_log_level env with
    | none => { result := .aborted, flushed := false, fs := fs, trace := [FsOp.readEnv] }
    | some log_level =>
        let path := l.resolvePath os
        match openOrCreate path fs oracle with
        | .error (e, ops) =>
            { result := .ioError e, flushed := false, fs := fs,
              trace := FsOp.readEnv :: ops }
        | .ok (mode, fs1, ops) =>
            let w := writeLoop mode oracle log_level l.entries 0
            match w.err with
            | some e =>
                { result := .ioError e, flushed := false,
                  fs := { fs1 with content := fs1.content ++ w.written },
                  trace := FsOp.readEnv :: (ops ++ w.ops) }
            | none =>
                { result := .ok, flushed := true,
                  fs := { fs1 with content := fs1.content ++ w.written },
                  trace := FsOp.readEnv :: (ops ++ w.ops) }

/-- Concatenation of a list of strings, in order. -/
def concatAll : List String → String
  | [] => ""
  | s :: rest => s ++ concatAll rest

/-- Operation list carried by an `openOrCreate` outcome, in either branch. -/
def exceptOps :
    Except (String × List FsOp) (FileMode × FileState × List FsOp) → List FsOp
  | .error (_, ops) => ops
  | .ok (_, _, ops) => ops

theorem string_append_assoc (a b c : String) : a ++ b ++ c = a ++ (b ++ c) := by
  cases a
  cases b
  cases c
  apply congrArg String.mk
  apply List.append_assoc

theorem openOrCreate_ops_shape (path : FsPath) (fs : FileState) (oracle : IoOracle) :
    ∀ op ∈ exceptOps (openOrCreate path fs oracle),
      op = FsOp.openExisting path ∨ (∃ q, op = FsOp.createDirAll q) ∨
        op = FsOp.createFile path := by
  intro op hop
  rcases fs with ⟨pres, content⟩
  rcases oracle with ⟨oe, cde, cfe, we⟩
  cases pres <;> cases oe <;> cases hpar : FsPath.parent path <;>
    cases cde <;> cases cfe <;>
    simp_all [openOrCreate, exceptOps] <;> tauto

theorem openOrCreate_present_noErr (path : FsPath) (fs : FileState)
    (h : fs.present = true) :
    openOrCreate path fs noErr =
      .ok (FileMode.readOnly, fs, [FsOp.openExisting path]) := by
  simp [openOrCreate, h, noErr]

theorem openOrCreate_absent_noErr (path : FsPath) (fs : FileState)
    (h : fs.present = false) :
    openOrCreate path fs noErr =
      .ok (FileMode.writeMode, { present := true, content := "" },
        (match path.parent with
         | some par => [FsOp.createDirAll par]
         | none => []) ++ [FsOp.createFile path]) := by
  cases hpar : FsPath.parent path <;> simp [openOrCreate, h, noErr, hpar]

theorem writeLoop_ops_shape (mode : FileMode) (oracle : IoOracle) (filter : LogLevel) :
    ∀ (entries : List LogEntry) (idx : Nat),
      ∀ op ∈ (writeLoop mode oracle filter entries idx).ops,
        ∃ e, e ∈ entries ∧ op = FsOp.writeLine (formatLine e ++ "\n") := by
  intro entries
  induction entries with
  | nil =>
      intro idx op hop
      simp [writeLoop] at hop
  | cons e rest ih =>
      intro idx op hop
      by_cases hinc : includeEntry filter e
      · simp only [writeLoop, hinc, if_true] at hop
        split at hop
        · simp at hop
          exact ⟨e, by simp, hop⟩
        · simp at hop
          exact ⟨e, by simp, hop⟩
        · simp at hop
          rcases hop with hop | hop
          · exact ⟨e, by simp, hop⟩
          · rcases ih (idx + 1) op hop with ⟨e2, he2, hop2⟩
            exact ⟨e2, by simp [he2], hop2⟩
      · simp only [writeLoop, hinc, if_false] at hop
        rcases ih idx op hop with ⟨e2, he2, hop2⟩
        exact ⟨e2, by simp [he2], hop2⟩

theorem writeLoop_writeMode_noErr (filter : LogLevel) :
    ∀ (entries : List LogEntry) (idx : Nat),
      writeLoop FileMode.writeMode noErr filter entries idx =
        { err := none,
          written := concatAll ((entries.filter (fun e => includeEntry filter e)).map
            (fun e => formatLine e ++ "\n")),
          ops := (entries.filter (fun e => includeEntry filter e)).map
            (fun e => FsOp.writeLine (formatLine e ++ "\n")) } := by
  intro entries
  induction entries with
  | nil =>
      intro idx
      simp [writeLoop, concatAll]
  | cons e rest ih =>
      intro idx
      by_cases hinc : includeEntry filter e
      · have hw : noErr.writeErr idx = none := rfl
        simp only [writeLoop, hinc, if_true, hw]
        simp [ih (idx + 1), concatAll, List.filter_cons, hinc]
      · simp [writeLoop, hinc, ih idx, List.filter_cons]

theorem flush_new_file_noErr (l : Logger) (env : Option String) (os : TargetOs)
    (fs : FileState) (lvl : LogLevel)
    (hf : l.flushed = false) (henv : get_log_level env = some lvl)
    (hnew : fs.present = false) :
    l.flush env os fs noErr =
      { result := FlushResult.ok, flushed := true,
        fs := { present := true,
                content := concatAll ((l.entries.filter (fun e => includeEntry lvl e)).map
                  (fun e => formatLine e ++ "\n")) },
        trace := FsOp.readEnv ::
          (((match (l.resolvePath os).parent with
             | some par => [FsOp.createDirAll par]
             | none => []) ++ [FsOp.createFile (l.resolvePath os)]) ++
            (l.entries.filter (fun e => includeEntry lvl e)).map
              (fun e => FsOp.writeLine (formatLine e ++ "\n"))) } := by
  simp [Logger.flush, hf, henv, openOrCreate_absent_noErr _ _ hnew,
    writeLoop_writeMode_noErr, String.empty_append]

theorem flush_existing_noErr_trace (l : Logger) (env : Option String) (os : TargetOs)
    (fs : FileState) (lvl : LogLevel)
    (hf : l.flushed = false) (henv : get_log_level env = some lvl)
    (hpres : fs.present = true) :
    (l.flush env os fs noErr).trace =
      FsOp.readEnv :: FsOp.openExisting (l.resolvePath os) ::
        (writeLoop FileMode.readOnly noErr lvl l.entries 0).ops := by
  simp only [Logger.flush, hf, Bool.false_eq_true, if_false, henv,
    openOrCreate_present_noErr _ _ hpres]
  split <;> simp

theorem flush_trace_readEnv (l : Logger) (env : Option String) (os : TargetOs)
    (fs : FileState) (oracle : IoOracle) (hf : l.flushed = false) :
    ∃ rest, (l.flush env os fs oracle).trace = FsOp.readEnv :: rest ∧
      FsOp.readEnv ∉ rest := by
  unfold Logger.flush
  simp only [hf, Bool.false_eq_true, if_false]
  split
  · exact ⟨[], by simp, by simp⟩
  · next lv hlv =>
      split
      · next e ops heq =>
          refine ⟨ops, by simp, ?_⟩
          intro hmem
          have hsh := openOrCreate_ops_shape (l.resolvePath os) fs oracle FsOp.readEnv
          rw [heq] at hsh
          simp [exceptOps] at hsh
          rcases hsh hmem with h | ⟨q, h⟩ | h <;> simp at h
      · next mode fs1 ops heq =>
          have hni : FsOp.readEnv ∉
              ops ++ (writeLoop mode oracle lv l.entries 0).ops := by
            intro hmem
            rcases List.mem_append.mp hmem with hmem | hmem
            · have hsh := openOrCreate_ops_shape (l.resolvePath os) fs oracle FsOp.readEnv
              rw [heq] at hsh
              simp [exceptOps] at hsh
              rcases hsh hmem with h | ⟨q, h⟩ | h <;> simp at h
            · rcases writeLoop_ops_shape mode oracle lv l.entries 0 FsOp.readEnv hmem with
                ⟨e2, _, h⟩
              simp at h
          split
          · exact ⟨ops ++ (writeLoop mode oracle lv l.entries 0).ops, by simp, hni⟩
          · exact ⟨ops ++ (writeLoop mode oracle lv l.entries 0).ops, by simp, hni⟩

/-- C3: for every buffer whose flushed flag is already true, flush returns
success immediately and performs no operation at all (empty trace: no
environment read, no file access, no write), leaving the file state
unchanged. -/
theorem flush_idempotent (l : Logger) (env : Option String) (os : TargetOs)
    (fs : FileState) (oracle : IoOracle) (hf : l.flushed = true) :
    l.flush env os fs oracle =
      { result := FlushResult.ok, flushed := true, fs := fs, trace := [] } := by
  simp [Logger.flush, hf]

theorem flush_idempotent_witness :
    (Logger.mk [] (some ⟨["/", "tmp", "x.log"]⟩) true).flushed = true ∧
    (Logger.mk [] (some ⟨["/", "tmp", "x.log"]⟩) true).flush (some "debug")
        TargetOs.linux { present := true, content := "old" } noErr =
      { result := FlushResult.ok, flushed := true,
        fs := { present := true, content := "old" }, trace := [] } :=
  ⟨rfl, flush_idempotent _ _ _ _ _ rfl⟩

/-- C8: each recording call (debug / info / error) always succeeds and appends
exactly one entry at the end of the sequence, carrying the variant's severity
(never Default), the given message and the supplied record-time timestamp;
the length grows by one, all previously recorded entries are preserved
unchanged and in order, and the other fields of the buffer are untouched. -/
theorem record_appends_entry (l : Logger) (message : String) (now : Timestamp) :
    ((l.debug message now).entries =
        l.entries ++ [{ timestap := now, level := LogLevel.Debug, message := message }] ∧
     (l.info message now).entries =
        l.entries ++ [{ timestap := now, level := LogLevel.Info, message := message }] ∧
     (l.error message now).entries =
        l.entries ++ [{ timestap := now, level := LogLevel.Error, message := message }]) ∧
    ((l.debug message now).entries.length = l.entries.length + 1 ∧
     (l.info message now).entries.length = l.entries.length + 1 ∧
     (l.error message now).entries.length = l.entries.length + 1) ∧
    ((l.debug message now).entries.take l.entries.length = l.entries ∧
     (l.info message now).entries.take l.entries.length = l.entries ∧
     (l.error message now).entries.take l.entries.length = l.entries) ∧
    ((l.debug message now).file_path = l.file_path ∧
     (l.debug message now).flushed = l.flushed ∧
     (l.info message now).file_path = l.file_path ∧
     (l.info message now).flushed = l.flushed ∧
     (l.error message now).file_path = l.file_path ∧
     (l.error message now).flushed = l.flushed) := by
  refine ⟨⟨rfl, rfl, rfl⟩, ?_, ?_, ⟨rfl, rfl, rfl, rfl, rfl, rfl⟩⟩
  · simp [Logger.debug, Logger.info, Logger.error]
  · simp [Logger.debug, Logger.info, Logger.error, List.take_left]

/-- C10: a buffer built by the public constructor always stores the supplied
path (`Some(path)`): path resolution in flush yields exactly that path for
every platform (so `default_log_path` is never consulted), recording calls
preserve it, and any buffer whose `file_path` is the supplied path resolves
to it regardless of the platform. -/
theorem new_logger_resolves_caller_path (p : FsPath) (os : TargetOs) :
    (Logger.new p).file_path = some p ∧
    (Logger.new p).resolvePath os = p ∧
    (∀ (message : String) (now : Timestamp),
      ((Logger.new p).debug message now).file_path = some p ∧
      ((Logger.new p).info message now).file_path = some p ∧
      ((Logger.new p).error message now).file_path = some p) ∧
    (∀ (entries : List LogEntry) (fl : Bool),
      (Logger.mk entries (some p) fl).resolvePath os = p) ∧
    (∀ os2 : TargetOs, (Logger.new p).resolvePath os = (Logger.new p).resolvePath os2) := by
  exact ⟨rfl, rfl, fun message now => ⟨rfl, rfl, rfl⟩, fun entries fl => rfl,
    fun os2 => rfl⟩

/-- C2 (code-bug evidence): the claim says flush with LOG_LEVEL unset does
not fail and behaves like a set-but-unrecognized value (Default filter,
include-all); the code instead calls `env::var("LOG_LEVEL").unwrap()`, which
panics when the variable is unset.  At the failing input (unset variable)
the flush aborts in `get_log_level` before any file access, while the same
flush with a set-but-unrecognized value succeeds. -/
theorem unset_env_aborts_flush :
    get_log_level none = none ∧
    ((Logger.new ⟨["/", "tmp", "app.log"]⟩).flush none TargetOs.linux
        { present := false, content := "" } noErr).result = FlushResult.aborted ∧
    ((Logger.new ⟨["/", "tmp", "app.log"]⟩).flush none TargetOs.linux
        { present := false, content := "" } noErr).trace = [FsOp.readEnv] ∧
    ((Logger.new ⟨["/", "tmp", "app.log"]⟩).flush (some "unrecognized") TargetOs.linux
        { present := false, content := "" } noErr).result = FlushResult.ok := by
  decide

/-- Concrete buffer holding one Error entry, aimed at an existing file. -/
def existingFileLogger : Logger :=
  { entries := [{ timestap := ⟨2024, 5, 6, 7, 8, 9⟩, level := LogLevel.Error,
                  message := "b" }],
    file_path := some ⟨["/", "tmp", "app.log"]⟩, flushed := false }

/-- Concrete state of the already existing target file. -/
def existingFileState : FileState :=
  { present := true, content := "[2024-01-01 00-00-00] Info: old\n" }

/-- C5 (code-bug evidence): the claim says a first flush against an existing
target file succeeds and appends the filtered lines; the code opens the
existing file with `File::open`, a read-only handle, and the subsequent
`writeln!` fails at the OS level.  At the concrete input (existing file, one
entry passing the Default filter) the flush returns an I/O error, appends
nothing, and leaves the flushed flag false. -/
theorem existing_file_flush_write_fails :
    (existingFileLogger.flush (some "x") TargetOs.linux existingFileState noErr).result =
        FlushResult.ioError "EBADF" ∧
    (existingFileLogger.flush (some "x") TargetOs.linux existingFileState noErr).fs =
        existingFileState ∧
    (existingFileLogger.flush (some "x") TargetOs.linux existingFileState noErr).flushed =
        false := by
  decide

/-- C1: a first flush (flushed = false) with a resolved filter and a fresh
target file succeeds, and the resulting file content is exactly the
concatenation, in original insertion order, of one line per buffered entry
selected by the filter; the Default and Debug filters select every entry and
the Error and Info filters select exactly the entries of that severity.  The
last conjunct instantiates the spec's example at flush's write phase: under
the Error filter, the entries [Info "a", Error "b", Debug "c", Error "d"]
produce exactly two line writes, for "b" then "d", in that order. -/
theorem flush_writes_filtered (l : Logger) (env : Option String) (os : TargetOs)
    (fs : FileState) (lvl : LogLevel) (ts1 ts2 ts3 ts4 : Timestamp)
    (hf : l.flushed = false) (henv : get_log_level env = some lvl)
    (hnew : fs.present = false) :
    ((l.flush env os fs noErr).result = FlushResult.ok ∧
     (l.flush env os fs noErr).fs.content =
       concatAll ((l.entries.filter (fun e => includeEntry lvl e)).map
         (fun e => formatLine e ++ "\n"))) ∧
    ((∀ e, includeEntry LogLevel.Default e = true) ∧
     (∀ e, includeEntry LogLevel.Debug e = true) ∧
     (∀ e, includeEntry LogLevel.Error e = true ↔ e.level = LogLevel.Error) ∧
     (∀ e, includeEntry LogLevel.Info e = true ↔ e.level = LogLevel.Info)) ∧
    ((writeLoop FileMode.writeMode noErr LogLevel.Error
        [⟨ts1, LogLevel.Info, "a"⟩, ⟨ts2, LogLevel.Error, "b"⟩,
         ⟨ts3, LogLevel.Debug, "c"⟩, ⟨ts4, LogLevel.Error, "d"⟩] 0).ops =
        [FsOp.writeLine (formatLine ⟨ts2, LogLevel.Error, "b"⟩ ++ "\n"),
         FsOp.writeLine (formatLine ⟨ts4, LogLevel.Error, "d"⟩ ++ "\n")] ∧
     (writeLoop FileMode.writeMode noErr LogLevel.Error
        [⟨ts1, LogLevel.Info, "a"⟩, ⟨ts2, LogLevel.Error, "b"⟩,
         ⟨ts3, LogLevel.Debug, "c"⟩, ⟨ts4, LogLevel.Error, "d"⟩] 0).err = none) := by
  refine ⟨?_, ?_, ?_⟩
  · rw [flush_new_file_noErr l env os fs lvl hf henv hnew]
    exact ⟨rfl, rfl⟩
  · refine ⟨fun e => rfl, fun e => rfl, fun e => ?_, fun e => ?_⟩
    · cases h : e.level <;> simp [includeEntry, h]
    · cases h : e.level <;> simp [includeEntry, h]
  · rw [writeLoop_writeMode_noErr]
    constructor <;> simp [List.filter_cons, includeEntry]

/-- Concrete buffer for the C1 witness. -/
def w1Logger : Logger :=
  { entries := [{ timestap := ⟨2024, 1, 1, 0, 0, 1⟩, level := LogLevel.Info,
                  message := "a" },
                { timestap := ⟨2024, 1, 1, 0, 0, 2⟩, level := LogLevel.Error,
                  message := "b" }],
    file_path := some ⟨["/", "tmp", "w.log"]⟩, flushed := false }

theorem flush_writes_filtered_witness :
    w1Logger.flushed = false ∧
    get_log_level (some "zzz") = some LogLevel.Default ∧
    ({ present := false, content := "" } : FileState).present = false ∧
    ((w1Logger.flush (some "zzz") TargetOs.linux
        { present := false, content := "" } noErr).result = FlushResult.ok ∧
     (w1Logger.flush (some "zzz") TargetOs.linux
        { present := false, content := "" } noErr).fs.content =
       concatAll ((w1Logger.entries.filter
          (fun e => includeEntry LogLevel.Default e)).map
         (fun e => formatLine e ++ "\n"))) :=
  ⟨rfl, rfl, rfl,
    (flush_writes_filtered w1Logger (some "zzz") TargetOs.linux
      { present := false, content := "" } LogLevel.Default
      ⟨2024, 1, 1, 0, 0, 1⟩ ⟨2024, 1, 1, 0, 0, 2⟩
      ⟨2024, 1, 1, 0, 0, 3⟩ ⟨2024, 1, 1, 0, 0, 4⟩ rfl rfl rfl).1⟩

/-- C6: a first flush reads LOG_LEVEL exactly once (its trace holds exactly
one readEnv operation), and for every set value the mapping is "debug" → the
Debug filter, "info" → the Info filter, any other set value → the Default
filter. -/
theorem flush_env_read_once (l : Logger) (os : TargetOs) (fs : FileState)
    (oracle : IoOracle) (s : String) (hf : l.flushed = false) :
    List.count FsOp.readEnv ((l.flush (some s) os fs oracle).trace) = 1 ∧
    (s = "debug" → get_log_level (some s) = some LogLevel.Debug) ∧
    (s = "info" → get_log_level (some s) = some LogLevel.Info) ∧
    (s ≠ "debug" → s ≠ "info" → get_log_level (some s) = some LogLevel.Default) := by
  refine ⟨?_, ?_, ?_, ?_⟩
  · rcases flush_trace_readEnv l (some s) os fs oracle hf with ⟨rest, htr, hni⟩
    rw [htr, List.count_cons_self, List.count_eq_zero.mpr hni]
  · intro h
    subst h
    rfl
  · intro h
    subst h
    rfl
  · intro h1 h2
    simp [get_log_level, h1, h2]

theorem flush_env_read_once_witness :
    (Logger.mk [] (some ⟨["/", "tmp", "v.log"]⟩) false).flushed = false ∧
    (List.count FsOp.readEnv
        (((Logger.mk [] (some ⟨["/", "tmp", "v.log"]⟩) false).flush (some "info")
          TargetOs.linux { present := false, content := "" } noErr).trace) = 1 ∧
     ("info" = "debug" → get_log_level (some "info") = some LogLevel.Debug) ∧
     ("info" = "info" → get_log_level (some "info") = some LogLevel.Info) ∧
     ("info" ≠ "debug" → "info" ≠ "info" →
        get_log_level (some "info") = some LogLevel.Default)) :=
  ⟨rfl, flush_env_read_once (Logger.mk [] (some ⟨["/", "tmp", "v.log"]⟩) false)
    TargetOs.linux { present := false, content := "" } noErr "info" rfl⟩

/-- C4: on a first flush, whenever an I/O operation fails the flush returns
that error and the flushed flag stays false, so a retried flush starts over
from the filter-resolution step (its trace begins with a fresh environment
read); the flag ends up true exactly when flush returns success. -/
theorem flush_error_keeps_unflushed (l : Logger) (env : Option String)
    (os : TargetOs) (fs : FileState) (oracle : IoOracle) (hf : l.flushed = false) :
    (∀ e, (l.flush env os fs oracle).result = FlushResult.ioError e →
      (l.flush env os fs oracle).flushed = false) ∧
    ((l.flush env os fs oracle).flushed = true ↔
      (l.flush env os fs oracle).result = FlushResult.ok) ∧
    (∀ e, (l.flush env os fs oracle).result = FlushResult.ioError e →
      ∃ rest,
        ((Logger.mk l.entries l.file_path (l.flush env os fs oracle).flushed).flush
            env os (l.flush env os fs oracle).fs oracle).trace =
          FsOp.readEnv :: rest) := by
  have key : (l.flush env os fs oracle).flushed = true ↔
      (l.flush env os fs oracle).result = FlushResult.ok := by
    unfold Logger.flush
    simp only [hf, Bool.false_eq_true, if_false]
    split
    · simp
    · split
      · simp
      · split <;> simp
  have herr : ∀ e, (l.flush env os fs oracle).result = FlushResult.ioError e →
      (l.flush env os fs oracle).flushed = false := by
    intro e he
    cases hb : (l.flush env os fs oracle).flushed
    · rfl
    · exfalso
      have hok := key.mp hb
      rw [he] at hok
      exact FlushResult.noConfusion hok
  refine ⟨herr, key, ?_⟩
  intro e he
  rw [herr e he]
  rcases flush_trace_readEnv (Logger.mk l.entries l.file_path false) env os
    ((l.flush env os fs oracle).fs) oracle rfl with ⟨rest, htr, _⟩
  exact ⟨rest, htr⟩

/-- Oracle whose file-open operation fails with EACCES. -/
def failOpenOracle : IoOracle :=
  { openErr := some "EACCES", createDirErr := none, createFileErr := none,
    writeErr := fun _ => none }

theorem flush_error_keeps_unflushed_witness :
    (Logger.mk [] (some ⟨["/", "tmp", "e.log"]⟩) false).flushed = false ∧
    ((Logger.mk [] (some ⟨["/", "tmp", "e.log"]⟩) false).flush (some "x")
        TargetOs.linux { present := true, content := "" } failOpenOracle).result =
      FlushResult.ioError "EACCES" ∧
    (∀ e, ((Logger.mk [] (some ⟨["/", "tmp", "e.log"]⟩) false).flush (some "x")
        TargetOs.linux { present := true, content := "" } failOpenOracle).result =
          FlushResult.ioError e →
      ((Logger.mk [] (some ⟨["/", "tmp", "e.log"]⟩) false).flush (some "x")
        TargetOs.linux { present := true, content := "" } failOpenOracle).flushed =
        false) :=
  ⟨rfl, by decide,
    (flush_error_keeps_unflushed (Logger.mk [] (some ⟨["/", "tmp", "e.log"]⟩) false)
      (some "x") TargetOs.linux { present := true, content := "" }
      failOpenOracle rfl).1⟩

/-- C7: every line any flush writes (every write operation in its trace) is
the line for one of the buffered entries and has exactly the fixed form
`[YYYY-MM-DD HH-MM-SS] <severity-label>: <message>` built from that entry's
own timestamp fields, its own severity name and its message, terminated by a
newline. -/
theorem flush_line_format (l : Logger) (env : Option String) (os : TargetOs)
    (fs : FileState) (oracle : IoOracle) (s : String)
    (hmem : FsOp.writeLine s ∈ (l.flush env os fs oracle).trace) :
    ∃ e, e ∈ l.entries ∧
      s = "[" ++ pad4 e.timestap.year ++ "-" ++ pad2 e.timestap.month ++ "-" ++
          pad2 e.timestap.day ++ " " ++ pad2 e.timestap.hour ++ "-" ++
          pad2 e.timestap.minute ++ "-" ++ pad2 e.timestap.second ++ "] " ++
          levelName e.level ++ ": " ++ e.message ++ "\n" := by
  have hprov : ∃ e, e ∈ l.entries ∧ s = formatLine e ++ "\n" := by
    unfold Logger.flush at hmem
    by_cases hfl : l.flushed
    · simp [hfl] at hmem
    · simp only [hfl, Bool.false_eq_true, if_false] at hmem
      split at hmem
      · simp at hmem
      · next lv hlv =>
          split at hmem
          · next e0 ops heq =>
              simp at hmem
              have hsh := openOrCreate_ops_shape (l.resolvePath os) fs oracle
                (FsOp.writeLine s)
              rw [heq] at hsh
              simp [exceptOps] at hsh
              rcases hsh hmem with h | ⟨q, h⟩ | h <;> simp at h
          · next mode fs1 ops heq =>
              have hcase : FsOp.writeLine s ∈ ops ∨
                  FsOp.writeLine s ∈ (writeLoop mode oracle lv l.entries 0).ops := by
                split at hmem <;> simpa using hmem
              rcases hcase with hmem2 | hmem2
              · have hsh := openOrCreate_ops_shape (l.resolvePath os) fs oracle
                  (FsOp.writeLine s)
                rw [heq] at hsh
                simp [exceptOps] at hsh
                rcases hsh hmem2 with h | ⟨q, h⟩ | h <;> simp at h
              · rcases writeLoop_ops_shape mode oracle lv l.entries 0
                  (FsOp.writeLine s) hmem2 with ⟨e2, he2, h⟩
                exact ⟨e2, he2, by simpa using h⟩
  rcases hprov with ⟨e, he, hs⟩
  refine ⟨e, he, ?_⟩
  rw [hs]
  simp [formatLine, formatTimestamp, string_append_assoc]

/-- Concrete buffer for the C7 witness. -/
def c7Logger : Logger :=
  { entries := [{ timestap := ⟨2024, 1, 2, 3, 4, 5⟩, level := LogLevel.Error,
                  message := "b" }],
    file_path := some ⟨["/", "tmp", "c.log"]⟩, flushed := false }

theorem flush_line_format_witness :
    FsOp.writeLine "[2024-01-02 03-04-05] Error: b\n" ∈
      (c7Logger.flush (some "zzz") TargetOs.linux
        { present := false, content := "" } noErr).trace ∧
    (∃ e, e ∈ c7Logger.entries ∧
      "[2024-01-02 03-04-05] Error: b\n" =
        "[" ++ pad4 e.timestap.year ++ "-" ++ pad2 e.timestap.month ++ "-" ++
        pad2 e.timestap.day ++ " " ++ pad2 e.timestap.hour ++ "-" ++
        pad2 e.timestap.minute ++ "-" ++ pad2 e.timestap.second ++ "] " ++
        levelName e.level ++ ": " ++ e.message ++ "\n") :=
  ⟨by decide,
    flush_line_format c7Logger (some "zzz") TargetOs.linux
      { present := false, content := "" } noErr
      "[2024-01-02 03-04-05] Error: b\n" (by decide)⟩

/-- C9: during a first flush with a resolved filter (all I/O succeeding), the
target file is created iff it did not exist: when the path exists, flush
opens the existing file and performs no create-file and no create-directory
operation; when it does not exist, flush performs no open of an existing
file, and its operations are exactly the environment read, then the creation
of the missing parent chain (when the path has a parent), then the creation
of the file, and then only line writes. -/
theorem flush_creates_iff_absent (l : Logger) (env : Option String) (os : TargetOs)
    (fs : FileState) (lvl : LogLevel)
    (hf : l.flushed = false) (henv : get_log_level env = some lvl) :
    (fs.present = true →
      (∀ p, FsOp.createFile p ∉ (l.flush env os fs noErr).trace) ∧
      (∀ p, FsOp.createDirAll p ∉ (l.flush env os fs noErr).trace) ∧
      FsOp.openExisting (l.resolvePath os) ∈ (l.flush env os fs noErr).trace) ∧
    (fs.present = false →
      ∃ wops,
        (l.flush env os fs noErr).trace =
          FsOp.readEnv ::
            ((match (l.resolvePath os).parent with
              | some par => [FsOp.createDirAll par]
              | none => []) ++ (FsOp.createFile (l.resolvePath os) :: wops)) ∧
        (∀ op ∈ wops, ∃ s, op = FsOp.writeLine s) ∧
        (∀ p, FsOp.openExisting p ∉ (l.flush env os fs noErr).trace)) := by
  constructor
  · intro hpres
    rw [flush_existing_noErr_trace l env os fs lvl hf henv hpres]
    refine ⟨?_, ?_, ?_⟩
    · intro p hmem2
      simp at hmem2
      rcases writeLoop_ops_shape FileMode.readOnly noErr lvl l.entries 0
        (FsOp.createFile p) hmem2 with ⟨e2, _, h⟩
      simp at h
    · intro p hmem2
      simp at hmem2
      rcases writeLoop_ops_shape FileMode.readOnly noErr lvl l.entries 0
        (FsOp.createDirAll p) hmem2 with ⟨e2, _, h⟩
      simp at h
    · simp
  · intro habs
    rw [flush_new_file_noErr l env os fs lvl hf henv habs]
    refine ⟨(l.entries.filter (fun e => includeEntry lvl e)).map
      (fun e => FsOp.writeLine (formatLine e ++ "\n")), ?_, ?_, ?_⟩
    · cases hpar : FsPath.parent (l.resolvePath os) <;> simp [hpar]
    · intro op hop
      rcases List.mem_map.mp hop with ⟨e2, _, h⟩
      exact ⟨formatLine e2 ++ "\n", h.symm⟩
    · intro p hmem2
      cases hpar : FsPath.parent (l.resolvePath os) <;>
        simp [hpar] at hmem2 <;>
        rcases hmem2 with ⟨e2, _, h⟩ <;> simp at h

/-- Concrete buffer for the C9 witness. -/
def c9Logger : Logger :=
  { entries := [{ timestap := ⟨2024, 2, 3, 4, 5, 6⟩, level := LogLevel.Debug,
                  message := "m" }],
    file_path := some ⟨["/", "tmp", "n.log"]⟩, flushed := false }

theorem flush_creates_iff_absent_witness :
    c9Logger.flushed = false ∧
    get_log_level (some "debug") = some LogLevel.Debug ∧
    ((({ present := true, content := "x" } : FileState).present = true →
      (∀ p, FsOp.createFile p ∉
        (c9Logger.flush (some "debug") TargetOs.linux
          { present := true, content := "x" } noErr).trace) ∧
      (∀ p, FsOp.createDirAll p ∉
        (c9Logger.flush (some "debug") TargetOs.linux
          { present := true, content := "x" } noErr).trace) ∧
      FsOp.openExisting (c9Logger.resolvePath TargetOs.linux) ∈
        (c9Logger.flush (some "debug") TargetOs.linux
          { present := true, content := "x" } noErr).trace) ∧
    (({ present := true, content := "x" } : FileState).present = false →
      ∃ wops,
        (c9Logger.flush (some "debug") TargetOs.linux
          { present := true, content := "x" } noErr).trace =
          FsOp.readEnv ::
            ((match (c9Logger.resolvePath TargetOs.linux).parent with
              | some par => [FsOp.createDirAll par]
              | none => []) ++
              (FsOp.createFile (c9Logger.resolvePath TargetOs.linux) :: wops)) ∧
        (∀ op ∈ wops, ∃ s, op = FsOp.writeLine s) ∧
        (∀ p, FsOp.openExisting p ∉
          (c9Logger.flush (some "debug") TargetOs.linux
            { present := true, content := "x" } noErr).trace))) :=
  ⟨rfl, rfl,
    flush_creates_iff_absent c9Logger (some "debug") TargetOs.linux
      { present := true, content := "x" } LogLevel.Debug rfl rfl⟩
